import Mathlib

/-!
# XLR8RC: the radio-control receiver driver

A shallow embedding of `src/src/XLR8RC.h` and `src/src/XLR8RC.cpp`.

The driver keeps two file-scope globals (the table `rcs` and the counter
`RcCount`), talks to three memory-mapped 8-bit registers (`RCCR`, `RCPWH`,
`RCPWL`) and calls the Arduino function `pinMode`.  All of it is gathered in
one record, `State`, that every member function takes and gives back.

Machine integers are natural numbers; a store into an 8-bit or 16-bit object
reduces the value modulo `2^8` or `2^16`.

The registers are `volatile`: the order in which a member function touches
them is part of what it does.  The member functions that touch a register
(`enable`, `disable`, `getPwm`) are therefore written once, in a form that
also gives the list of their register accesses in the order they happen
(`enable_traced`, `disable_traced`, `getPwm_traced`); `enable`, `disable` and
`getPwm` are that form without the list.
-/

namespace XLR8

/-! ## Constants of `XLR8RC.h` -/

/-- Bit number of the enable opcode in the control register (`#define RCEN 7`). -/
def RCEN : Nat := 7

/-- Bit number of the disable opcode in the control register (`#define RCDIS 6`). -/
def RCDIS : Nat := 6

/-- The receive pin (`#define RCPIN 3`). -/
def RCPIN : Nat := 3

/-- Capacity of the table (`#define MAX_RCS 32`). -/
def MAX_RCS : Nat := 32

/-- The sentinel index of a handle that got no slot (`#define INVALID_RC 255`). -/
def INVALID_RC : Nat := 255

/-- The pin modes of Arduino's `pinMode`; the driver only ever passes `INPUT`. -/
inductive PinMode where
  | INPUT
  | OUTPUT
  | INPUT_PULLUP
  deriving DecidableEq, Repr

/-! ## Data model -/

/-- The record `RCSettings_t`: a `uint16_t` pulse width and a `bool` flag. -/
structure RCSettings_t where
  pwm_recv : Nat
  en : Bool
  deriving DecidableEq, Repr

/-- The record `rc_t`, which wraps one `RCSettings_t`. -/
structure rc_t where
  settings : RCSettings_t
  deriving DecidableEq, Repr

/-- Everything the member functions read or write.

* `rcs` is the memory reached through `rcs[k]`, for every value `k` the 8-bit
  index can take.  The declared array `static rc_t rcs[MAX_RCS]` is the part
  `k < 32`; an entry `k ≥ 32` stands for the memory past the end of the array,
  which is where `rcs[255]` lands.
* `RcCount` is the global `uint8_t RcCount`.
* `RCCR` is the control register, written by the driver.
* `RCPWH`, `RCPWL` are the pulse-width registers: inputs, holding what the
  peripheral presents when the driver reads them.  The driver never writes them.
* `pinModeCalls` lists the calls of `pinMode` made so far, oldest first, each
  as the pair of its arguments. -/
structure State where
  rcs : Nat → rc_t
  RcCount : Nat
  RCCR : Nat
  RCPWH : Nat
  RCPWL : Nat
  pinModeCalls : List (Nat × PinMode)

/-- The state after static initialisation (`rcs` zeroed, `RcCount = 0`, no
`pinMode` call yet), for given contents of the three hardware registers.  The
memory past the end of the array is taken as zero as well. -/
def State.initial (rccr rcpwh rcpwl : Nat) : State where
  rcs := fun _ => ⟨⟨0, false⟩⟩
  RcCount := 0
  RCCR := rccr
  RCPWH := rcpwh
  RCPWL := rcpwl
  pinModeCalls := []

/-- The assignment `rcs[k].settings.pwm_recv = v` (a `uint16_t` store). -/
def State.store_pwm_recv (s : State) (k v : Nat) : State :=
  { s with rcs := fun j => if j = k then ⟨⟨v % 65536, (s.rcs k).settings.en⟩⟩ else s.rcs j }

/-- The assignment `rcs[k].settings.en = b`. -/
def State.store_en (s : State) (k : Nat) (b : Bool) : State :=
  { s with rcs := fun j => if j = k then ⟨⟨(s.rcs k).settings.pwm_recv, b⟩⟩ else s.rcs j }

/-- The assignment `RCCR = v` (an 8-bit register store). -/
def State.store_RCCR (s : State) (v : Nat) : State :=
  { s with RCCR := v % 256 }

/-- Arduino's `pinMode(pin, mode)`, recorded as a call. -/
def pinMode (pin : Nat) (mode : PinMode) (s : State) : State :=
  { s with pinModeCalls := s.pinModeCalls ++ [(pin, mode)] }

/-- One access to a hardware register: a write of `RCCR` with the value the
register takes, or a read of `RCPWH` or `RCPWL` with the value it gives. -/
inductive Access where
  | write_RCCR (v : Nat)
  | read_RCPWH (v : Nat)
  | read_RCPWL (v : Nat)
  deriving DecidableEq, Repr

/-- The assignment `RCCR = v`, with the access it makes. -/
def State.write_RCCR (s : State) (v : Nat) : State × List Access :=
  (s.store_RCCR v, [Access.write_RCCR (v % 256)])

/-- A read of `RCPWH` in state `s`: the value, with the access it makes. -/
def State.read_RCPWH (s : State) : Nat × List Access :=
  (s.RCPWH, [Access.read_RCPWH s.RCPWH])

/-- A read of `RCPWL` in state `s`: the value, with the access it makes. -/
def State.read_RCPWL (s : State) : Nat × List Access :=
  (s.RCPWL, [Access.read_RCPWL s.RCPWL])

/-- The class `XLR8RC`: a handle, whose only member is the private `rcIndex`. -/
structure XLR8RC where
  rcIndex : Nat
  deriving DecidableEq, Repr

/-! ## Member functions of `XLR8RC.cpp` -/

/-- The member `XLR8RC::init`: `pinMode(RCPIN, INPUT)`. -/
def XLR8RC.init (_self : XLR8RC) (s : State) : State :=
  pinMode RCPIN PinMode.INPUT s

/-- The constructor `XLR8RC::XLR8RC()`.  It returns the new handle and the state
it leaves.  `RcCount++` is an 8-bit increment. -/
def XLR8RC.construct (s : State) : XLR8RC × State :=
  if s.RcCount < MAX_RCS then
    let self : XLR8RC := ⟨s.RcCount⟩
    let s1 : State := { s with RcCount := (s.RcCount + 1) % 256 }
    let s2 := s1.store_pwm_recv self.rcIndex 0
    let s3 := s2.store_en self.rcIndex false
    (self, self.init s3)
  else
    (⟨INVALID_RC⟩, s)

/-- The member `XLR8RC::enable`, with its register accesses: the state it
leaves, and the one write of `RCCR`. -/
def XLR8RC.enable_traced (self : XLR8RC) (s : State) : State × List Access :=
  let s1 := s.store_en self.rcIndex true
  s1.write_RCCR ((1 <<< RCEN) ||| (0x1f &&& self.rcIndex))

/-- The member `XLR8RC::enable`: the state it leaves. -/
def XLR8RC.enable (self : XLR8RC) (s : State) : State :=
  (self.enable_traced s).1

/-- The member `XLR8RC::disable`, with its register accesses: the state it
leaves, and the one write of `RCCR`. -/
def XLR8RC.disable_traced (self : XLR8RC) (s : State) : State × List Access :=
  let s1 := s.store_en self.rcIndex false
  s1.write_RCCR ((1 <<< RCDIS) ||| (0x1f &&& self.rcIndex))

/-- The member `XLR8RC::disable`: the state it leaves. -/
def XLR8RC.disable (self : XLR8RC) (s : State) : State :=
  (self.disable_traced s).1

/-- The member `XLR8RC::getPwm`, with its register accesses.  It gives the
returned value and the state it leaves, and the accesses in order: those of
`this->enable()`, then the reads of `RCPWH` and of `RCPWL`, which are made in
the state `enable` left.  (The two reads are operands of one `|`; they are
listed as the source writes them, left to right.)  `RCPWH << 8` is computed in
a 16-bit `int` and cast to `uint16_t`, which keeps the low 16 bits. -/
def XLR8RC.getPwm_traced (self : XLR8RC) (s : State) : (Nat × State) × List Access :=
  let e := self.enable_traced s
  let h := e.1.read_RCPWH
  let l := e.1.read_RCPWL
  let s2 := e.1.store_pwm_recv self.rcIndex (((h.1 <<< 8) % 65536) ||| l.1)
  (((s2.rcs self.rcIndex).settings.pwm_recv, s2), e.2 ++ h.2 ++ l.2)

/-- The member `XLR8RC::getPwm`: the value it returns and the state it leaves. -/
def XLR8RC.getPwm (self : XLR8RC) (s : State) : Nat × State :=
  (self.getPwm_traced s).1

/-- The member `XLR8RC::isEnabled`.  It returns the flag and the state it
leaves. -/
def XLR8RC.isEnabled (self : XLR8RC) (s : State) : Bool × State :=
  ((s.rcs self.rcIndex).settings.en, s)

/-! ## Sequences of constructions -/

/-- Runs the constructor `n` times in a row, starting in `s`: the handles in
creation order, and the final state. -/
def constructMany : Nat → State → List XLR8RC × State
  | 0, s => ([], s)
  | n + 1, s =>
    let r := XLR8RC.construct s
    let rest := constructMany n r.2
    (r.1 :: rest.1, rest.2)

/-- The slot indices of the handles made by `n` constructions in a row. -/
def constructedIndices (n : Nat) (s : State) : List Nat :=
  (constructMany n s).1.map XLR8RC.rcIndex

/-! ## Client programs -/

/-- One call a client program makes.  A handle is named by its position, from
0, among the handles constructed so far: `rcIndex` is private, so a client
only holds handles the constructor gave it. -/
inductive Call where
  | construct
  | enable (h : Nat)
  | disable (h : Nat)
  | getPwm (h : Nat)
  | isEnabled (h : Nat)
  deriving DecidableEq, Repr

/-- Runs one call on the handles made so far and the state.  A construction
appends its handle; a call on a handle that does not exist yet does nothing. -/
def step (p : List XLR8RC × State) : Call → List XLR8RC × State
  | Call.construct => (p.1 ++ [(XLR8RC.construct p.2).1], (XLR8RC.construct p.2).2)
  | Call.enable h =>
    match p.1[h]? with
    | some x => (p.1, x.enable p.2)
    | none => p
  | Call.disable h =>
    match p.1[h]? with
    | some x => (p.1, x.disable p.2)
    | none => p
  | Call.getPwm h =>
    match p.1[h]? with
    | some x => (p.1, (x.getPwm p.2).2)
    | none => p
  | Call.isEnabled h =>
    match p.1[h]? with
    | some x => (p.1, (x.isEnabled p.2).2)
    | none => p

/-- Runs the calls of a client program in order. -/
def run : List Call → List XLR8RC × State → List XLR8RC × State
  | [], p => p
  | c :: cs, p => run cs (step p c)

/-- A program starts with no handle, in the state after static initialisation. -/
def boot (rccr rcpwh rcpwl : Nat) : List XLR8RC × State :=
  ([], State.initial rccr rcpwh rcpwl)

/-! ## Lemmas on the constructor -/

theorem ctor_of_lt (s : State) (h : s.RcCount < 32) :
    (XLR8RC.construct s).1.rcIndex = s.RcCount ∧
      (XLR8RC.construct s).2.RcCount = s.RcCount + 1 := by
  have h1 : (s.RcCount + 1) % 256 = s.RcCount + 1 := Nat.mod_eq_of_lt (by omega)
  simp [XLR8RC.construct, MAX_RCS, h, XLR8RC.init, pinMode, State.store_en,
    State.store_pwm_recv, h1]

theorem ctor_of_ge (s : State) (h : 32 ≤ s.RcCount) :
    XLR8RC.construct s = (⟨INVALID_RC⟩, s) := by
  have h1 : ¬ s.RcCount < 32 := by omega
  simp [XLR8RC.construct, MAX_RCS, h1]

theorem constructedIndices_succ (n : Nat) (s : State) :
    constructedIndices (n + 1) s =
      (XLR8RC.construct s).1.rcIndex :: constructedIndices n (XLR8RC.construct s).2 := by
  simp [constructedIndices, constructMany]

theorem constructedIndices_length (n : Nat) (s : State) :
    (constructedIndices n s).length = n := by
  induction n generalizing s with
  | zero => simp [constructedIndices, constructMany]
  | succ n ih => rw [constructedIndices_succ]; simp [ih]

/-- From a counter `c` with `c + n ≤ 32`, `n` constructions hand out
`c, c + 1, ..., c + n - 1`. -/
theorem constructedIndices_fresh (n : Nat) (s : State) (h : s.RcCount + n ≤ 32) :
    constructedIndices n s = List.range' s.RcCount n := by
  induction n generalizing s with
  | zero => simp [constructedIndices, constructMany]
  | succ n ih =>
    have hlt : s.RcCount < 32 := by omega
    obtain ⟨h1, h2⟩ := ctor_of_lt s hlt
    rw [constructedIndices_succ, h1, ih _ (by rw [h2]; omega), h2]
    rfl

/-- After `n` constructions the counter has grown by `n`, but not past 32. -/
theorem constructMany_RcCount (n : Nat) (s : State) (h : s.RcCount ≤ 32) :
    (constructMany n s).2.RcCount = min (s.RcCount + n) 32 := by
  induction n generalizing s with
  | zero => simp [constructMany]; omega
  | succ n ih =>
    show (constructMany n (XLR8RC.construct s).2).2.RcCount = _
    by_cases hlt : s.RcCount < 32
    · obtain ⟨_, h2⟩ := ctor_of_lt s hlt
      rw [ih _ (by rw [h2]; omega), h2]
      omega
    · rw [ctor_of_ge s (by omega), ih s h]
      omega

/-- The index handed out by a single construction. -/
theorem ctor_rcIndex (s : State) :
    (XLR8RC.construct s).1.rcIndex = if s.RcCount < 32 then s.RcCount else INVALID_RC := by
  by_cases hlt : s.RcCount < 32
  · rw [(ctor_of_lt s hlt).1, if_pos hlt]
  · rw [ctor_of_ge s (by omega), if_neg hlt]

/-- The index of the handle at position `j` (from 0) of a run of constructions. -/
theorem constructedIndices_get (n : Nat) (s : State) (h : s.RcCount ≤ 32)
    (j : Nat) (hj : j < n) :
    (constructedIndices n s)[j]? =
      some (if s.RcCount + j < 32 then s.RcCount + j else INVALID_RC) := by
  induction n generalizing s j with
  | zero => omega
  | succ n ih =>
    rw [constructedIndices_succ]
    cases j with
    | zero => simp [ctor_rcIndex]
    | succ j =>
      rw [List.getElem?_cons_succ]
      by_cases hlt : s.RcCount < 32
      · obtain ⟨_, h2⟩ := ctor_of_lt s hlt
        rw [ih _ (by rw [h2]; omega) j (by omega), h2]
        have e : s.RcCount + 1 + j = s.RcCount + (j + 1) := by omega
        rw [e]
      · rw [ctor_of_ge s (by omega), ih s h j (by omega)]
        have h1 : ¬ s.RcCount + j < 32 := by omega
        have h2 : ¬ s.RcCount + (j + 1) < 32 := by omega
        rw [if_neg h1, if_neg h2]

/-! ## Lemmas on the register commands and the pulse width -/

/-- An opcode bit below 8 combined with the 5 low bits of an index fits the
8-bit control register. -/
theorem command_mod (b i : Nat) (hb : b < 8) :
    ((1 <<< b) ||| (0x1f &&& i)) % 256 = (1 <<< b) ||| (i &&& 0x1F) := by
  have h1 : 0x1f &&& i < 2 ^ 8 := lt_of_le_of_lt Nat.and_le_left (by norm_num)
  have h2 : 1 <<< b < 2 ^ 8 := by
    rw [Nat.one_shiftLeft]
    exact Nat.pow_lt_pow_right (by norm_num) hb
  have h3 : (1 <<< b) ||| (0x1f &&& i) < 2 ^ 8 := Nat.or_lt_two_pow h2 h1
  rw [Nat.mod_eq_of_lt (by simpa using h3), Nat.and_comm]

/-- Two bytes combined as in `getPwm` lose nothing in the 16-bit casts. -/
theorem pulse_mod (hi lo : Nat) (hh : hi < 256) (hl : lo < 256) :
    (((hi <<< 8) % 65536) ||| lo) % 65536 = (hi <<< 8) ||| lo ∧
      (hi <<< 8) ||| lo < 65536 := by
  have h1 : hi <<< 8 < 2 ^ 16 := by
    rw [Nat.shiftLeft_eq]; omega
  have h2 : lo < 2 ^ 16 := by omega
  have h3 : (hi <<< 8) ||| lo < 2 ^ 16 := Nat.or_lt_two_pow h1 h2
  have h4 : (hi <<< 8) % 65536 = hi <<< 8 := Nat.mod_eq_of_lt (by simpa using h1)
  rw [h4]
  exact ⟨Nat.mod_eq_of_lt (by simpa using h3), by simpa using h3⟩

/-! ## Lemmas on `enable`, `disable` and `getPwm` -/

theorem enable_RCCR (i : Nat) (s : State) :
    (XLR8RC.enable ⟨i⟩ s).RCCR = (1 <<< 7) ||| (i &&& 0x1F) := by
  simp only [XLR8RC.enable, XLR8RC.enable_traced, State.write_RCCR, State.store_RCCR,
    State.store_en, RCEN]
  exact command_mod 7 i (by norm_num)

theorem disable_RCCR (i : Nat) (s : State) :
    (XLR8RC.disable ⟨i⟩ s).RCCR = (1 <<< 6) ||| (i &&& 0x1F) := by
  simp only [XLR8RC.disable, XLR8RC.disable_traced, State.write_RCCR, State.store_RCCR,
    State.store_en, RCDIS]
  exact command_mod 6 i (by norm_num)

theorem enable_en (i : Nat) (s : State) :
    ((XLR8RC.enable ⟨i⟩ s).rcs i).settings.en = true := by
  simp [XLR8RC.enable, XLR8RC.enable_traced, State.write_RCCR, State.store_RCCR, State.store_en]

theorem disable_en (i : Nat) (s : State) :
    ((XLR8RC.disable ⟨i⟩ s).rcs i).settings.en = false := by
  simp [XLR8RC.disable, XLR8RC.disable_traced, State.write_RCCR, State.store_RCCR, State.store_en]

theorem getPwm_en (i : Nat) (s : State) :
    (((XLR8RC.getPwm ⟨i⟩ s).2).rcs i).settings.en = true := by
  simp [XLR8RC.getPwm, XLR8RC.getPwm_traced, State.read_RCPWH, State.read_RCPWL,
    XLR8RC.enable, XLR8RC.enable_traced, State.write_RCCR, State.store_RCCR, State.store_en,
    State.store_pwm_recv]

theorem getPwm_RCCR (i : Nat) (s : State) :
    (XLR8RC.getPwm ⟨i⟩ s).2.RCCR = (XLR8RC.enable ⟨i⟩ s).RCCR := by
  simp [XLR8RC.getPwm, XLR8RC.getPwm_traced, XLR8RC.enable, State.read_RCPWH,
    State.read_RCPWL, State.store_pwm_recv]

theorem getPwm_value (i : Nat) (s : State) :
    (XLR8RC.getPwm ⟨i⟩ s).1 = (((s.RCPWH <<< 8) % 65536) ||| s.RCPWL) % 65536 ∧
      (((XLR8RC.getPwm ⟨i⟩ s).2).rcs i).settings.pwm_recv = (XLR8RC.getPwm ⟨i⟩ s).1 := by
  simp [XLR8RC.getPwm, XLR8RC.getPwm_traced, State.read_RCPWH, State.read_RCPWL,
    XLR8RC.enable, XLR8RC.enable_traced, State.write_RCCR, State.store_RCCR, State.store_en,
    State.store_pwm_recv]

/-- A 16-bit store sees its value only through the low 16 bits. -/
theorem store_pwm_recv_congr (s : State) (k v w : Nat) (h : v % 65536 = w % 65536) :
    s.store_pwm_recv k v = s.store_pwm_recv k w := by
  simp only [State.store_pwm_recv, h]

theorem getPwm_state (i : Nat) (s : State) :
    (XLR8RC.getPwm ⟨i⟩ s).2 = (XLR8RC.enable ⟨i⟩ s).store_pwm_recv i
      (((s.RCPWH <<< 8) % 65536) ||| s.RCPWL) := by
  simp [XLR8RC.getPwm, XLR8RC.getPwm_traced, State.read_RCPWH, State.read_RCPWL,
    XLR8RC.enable, XLR8RC.enable_traced, State.write_RCCR, State.store_RCCR, State.store_en,
    State.store_pwm_recv]

/-- The register accesses of `getPwm`, in order: the write of `RCCR` made by
`enable`, then the two reads. -/
theorem getPwm_traced_accesses (i : Nat) (s : State) :
    (XLR8RC.getPwm_traced ⟨i⟩ s).2 =
      [Access.write_RCCR ((1 <<< 7) ||| (i &&& 0x1F)), Access.read_RCPWH s.RCPWH,
        Access.read_RCPWL s.RCPWL] := by
  simp only [XLR8RC.getPwm_traced, XLR8RC.enable_traced, State.write_RCCR, State.read_RCPWH,
    State.read_RCPWL, State.store_RCCR, State.store_en, RCEN, List.singleton_append,
    List.cons_append, List.nil_append]
  rw [command_mod 7 i (by norm_num)]

/-- Constructions never write the control register. -/
theorem construct_RCCR (s : State) : (XLR8RC.construct s).2.RCCR = s.RCCR := by
  by_cases hlt : s.RcCount < MAX_RCS <;>
    simp [XLR8RC.construct, hlt, XLR8RC.init, pinMode, State.store_en,
      State.store_pwm_recv]

theorem constructMany_RCCR (n : Nat) (s : State) :
    (constructMany n s).2.RCCR = s.RCCR := by
  induction n generalizing s with
  | zero => rfl
  | succ n ih =>
    show (constructMany n (XLR8RC.construct s).2).2.RCCR = _
    rw [ih, construct_RCCR]

/-- Storing into `en` the value it already has changes nothing. -/
theorem store_en_same (s : State) (i : Nat) (b : Bool) (h : (s.rcs i).settings.en = b) :
    s.store_en i b = s := by
  cases s with
  | mk rcs c r ph pl pm =>
    simp only [State.store_en, State.mk.injEq, and_true]
    funext j
    by_cases hj : j = i
    · subst hj
      simp only [if_true]
      rw [← h]
    · simp [hj]

/-- A state equals itself with `RCCR` replaced exactly when `RCCR` held that
value. -/
theorem with_RCCR_eq_iff (s : State) (v : Nat) :
    ({ s with RCCR := v } : State) = s ↔ s.RCCR = v := by
  cases s with
  | mk rcs c r ph pl pm =>
    simp only [State.mk.injEq, true_and, and_true]
    exact eq_comm

/-! ## Lemmas on client programs -/

theorem enable_RcCount (x : XLR8RC) (s : State) : (x.enable s).RcCount = s.RcCount := rfl

theorem disable_RcCount (x : XLR8RC) (s : State) : (x.disable s).RcCount = s.RcCount := rfl

theorem getPwm_RcCount (x : XLR8RC) (s : State) : (x.getPwm s).2.RcCount = s.RcCount := rfl

/-- The counter after a single construction. -/
theorem construct_RcCount (s : State) :
    (XLR8RC.construct s).2.RcCount = if s.RcCount < 32 then s.RcCount + 1 else s.RcCount := by
  by_cases hlt : s.RcCount < 32
  · rw [(ctor_of_lt s hlt).2, if_pos hlt]
  · rw [ctor_of_ge s (by omega), if_neg hlt]

/-- Only a construction moves the counter, and only by one, below 32. -/
theorem step_RcCount (p : List XLR8RC × State) (c : Call) :
    (step p c).2.RcCount =
      if c = Call.construct ∧ p.2.RcCount < 32 then p.2.RcCount + 1 else p.2.RcCount := by
  cases c with
  | construct =>
    simp only [step, construct_RcCount, true_and]
  | enable h =>
    cases hx : p.1[h]? <;> simp [step, hx, enable_RcCount]
  | disable h =>
    cases hx : p.1[h]? <;> simp [step, hx, disable_RcCount]
  | getPwm h =>
    cases hx : p.1[h]? <;> simp [step, hx, getPwm_RcCount]
  | isEnabled h =>
    cases hx : p.1[h]? <;> simp [step, hx, XLR8RC.isEnabled]

/-- The handles after one call: a construction appends its handle. -/
theorem step_handles (p : List XLR8RC × State) (c : Call) :
    (step p c).1 = if c = Call.construct then p.1 ++ [(XLR8RC.construct p.2).1] else p.1 := by
  cases c with
  | construct => simp [step]
  | enable h => cases hx : p.1[h]? <;> simp [step, hx]
  | disable h => cases hx : p.1[h]? <;> simp [step, hx]
  | getPwm h => cases hx : p.1[h]? <;> simp [step, hx]
  | isEnabled h => cases hx : p.1[h]? <;> simp [step, hx]

theorem run_append (cs ds : List Call) (p : List XLR8RC × State) :
    run (cs ++ ds) p = run ds (run cs p) := by
  induction cs generalizing p with
  | nil => rfl
  | cons c cs ih => exact ih (step p c)

/-- The counter after a program: it has grown by the number of constructions,
but not past 32. -/
theorem run_RcCount (cs : List Call) (p : List XLR8RC × State) (h : p.2.RcCount ≤ 32) :
    (run cs p).2.RcCount = min (p.2.RcCount + cs.count Call.construct) 32 := by
  induction cs generalizing p with
  | nil => simp [run]; omega
  | cons c cs ih =>
    have hs := step_RcCount p c
    show (run cs (step p c)).2.RcCount = _
    by_cases hc : c = Call.construct
    · subst hc
      rw [List.count_cons_self]
      by_cases hlt : p.2.RcCount < 32
      · rw [if_pos ⟨rfl, hlt⟩] at hs
        rw [ih _ (by rw [hs]; omega), hs]
        omega
      · rw [if_neg (fun hh => hlt hh.2)] at hs
        rw [ih _ (by rw [hs]; omega), hs]
        omega
    · rw [if_neg (fun hh => hc hh.1)] at hs
      rw [List.count_cons_of_ne (fun e => hc e.symm), ih _ (by rw [hs]; omega), hs]

/-- The number of handles after a program. -/
theorem run_length (cs : List Call) (p : List XLR8RC × State) :
    (run cs p).1.length = p.1.length + cs.count Call.construct := by
  induction cs generalizing p with
  | nil => simp [run]
  | cons c cs ih =>
    show (run cs (step p c)).1.length = _
    rw [ih, step_handles]
    by_cases hc : c = Call.construct
    · subst hc
      simp only [if_true, List.length_append, List.length_singleton, List.count_cons_self]
      omega
    · rw [if_neg hc, List.count_cons_of_ne (fun e => hc e.symm)]

/-- The invariant on handles: each index is below the counter or the sentinel. -/
theorem step_indices (p : List XLR8RC × State) (c : Call)
    (h : ∀ x ∈ p.1, x.rcIndex < p.2.RcCount ∨ x.rcIndex = INVALID_RC) :
    ∀ x ∈ (step p c).1, x.rcIndex < (step p c).2.RcCount ∨ x.rcIndex = INVALID_RC := by
  intro x hx
  rw [step_handles] at hx
  rw [step_RcCount]
  by_cases hc : c = Call.construct
  · subst hc
    rw [if_pos rfl, List.mem_append, List.mem_singleton] at hx
    by_cases hlt : p.2.RcCount < 32
    · rw [if_pos ⟨rfl, hlt⟩]
      rcases hx with hx | hx
      · rcases h x hx with h1 | h1
        · left; omega
        · right; exact h1
      · left
        rw [hx, (ctor_of_lt p.2 hlt).1]
        omega
    · rw [if_neg (fun hh => hlt hh.2)]
      rcases hx with hx | hx
      · exact h x hx
      · right
        rw [hx, ctor_of_ge p.2 (by omega)]
  · rw [if_neg hc] at hx
    rw [if_neg (fun hh => hc hh.1)]
    exact h x hx

theorem run_indices (cs : List Call) (p : List XLR8RC × State)
    (h : ∀ x ∈ p.1, x.rcIndex < p.2.RcCount ∨ x.rcIndex = INVALID_RC) :
    ∀ x ∈ (run cs p).1, x.rcIndex < (run cs p).2.RcCount ∨ x.rcIndex = INVALID_RC := by
  induction cs generalizing p with
  | nil => exact h
  | cons c cs ih => exact ih (step p c) (step_indices p c h)

/-! ## Lemmas on the value of the commands and of the pulse width -/

/-- For an index below 32 the enable command is `128 + i`. -/
theorem enable_cmd_val (i : Nat) (hi : i < 32) : (1 <<< 7) ||| (i &&& 0x1F) = 128 + i := by
  interval_cases i <;> rfl

/-- For an index below 32 the disable command is `64 + i`. -/
theorem disable_cmd_val (i : Nat) (hi : i < 32) : (1 <<< 6) ||| (i &&& 0x1F) = 64 + i := by
  interval_cases i <;> rfl

/-- A high part shifted by 8 and a low byte combine without overlap. -/
theorem pulse_val (hi lo : Nat) (hl : lo < 256) : (hi <<< 8) ||| lo = hi * 256 + lo := by
  have h := Nat.mul_add_lt_is_or (show lo < 2 ^ 8 by omega) hi
  rw [Nat.shiftLeft_eq, ← Nat.mul_comm (2 ^ 8) hi, ← h]

/-- Stores through one handle leave every other entry of `rcs` alone. -/
theorem enable_rcs_other (i j : Nat) (s : State) (hj : j ≠ i) :
    (XLR8RC.enable ⟨i⟩ s).rcs j = s.rcs j := by
  simp [XLR8RC.enable, XLR8RC.enable_traced, State.write_RCCR, State.store_RCCR, State.store_en, hj]

theorem disable_rcs_other (i j : Nat) (s : State) (hj : j ≠ i) :
    (XLR8RC.disable ⟨i⟩ s).rcs j = s.rcs j := by
  simp [XLR8RC.disable, XLR8RC.disable_traced, State.write_RCCR, State.store_RCCR,
    State.store_en, hj]

theorem getPwm_rcs_other (i j : Nat) (s : State) (hj : j ≠ i) :
    (XLR8RC.getPwm ⟨i⟩ s).2.rcs j = s.rcs j := by
  simp [XLR8RC.getPwm, XLR8RC.getPwm_traced, State.read_RCPWH, State.read_RCPWL,
    XLR8RC.enable, XLR8RC.enable_traced, State.write_RCCR, State.store_RCCR, State.store_en,
    State.store_pwm_recv, hj]

/-- The store of the flag keeps the pulse width of the same slot. -/
theorem enable_pwm_recv (i : Nat) (s : State) :
    ((XLR8RC.enable ⟨i⟩ s).rcs i).settings.pwm_recv = (s.rcs i).settings.pwm_recv := by
  simp [XLR8RC.enable, XLR8RC.enable_traced, State.write_RCCR, State.store_RCCR, State.store_en]

/-! ## Theorems -/

/-- C1: from a state whose allocation counter is 0, for every `n ≤ 32` the
handles made by `n` constructions in a row carry the indices `0, 1, ..., n-1`
in creation order (the handle made `k`-th, counting from 1, has index `k-1`),
and these indices are pairwise distinct. -/
theorem C1_indices_in_creation_order (s : State) (n : Nat)
    (h0 : s.RcCount = 0) (hn : n ≤ 32) :
    constructedIndices n s = List.range n ∧
      (∀ k, 1 ≤ k → k ≤ n → (constructedIndices n s)[k - 1]? = some (k - 1)) ∧
      (constructedIndices n s).Nodup := by
  have h := constructedIndices_fresh n s (by omega)
  rw [h0] at h
  have hr : constructedIndices n s = List.range n := by
    rw [h, List.range_eq_range']
  refine ⟨hr, ?_, ?_⟩
  · intro k hk1 hkn
    rw [hr, List.getElem?_range (by omega)]
  · rw [hr]; exact List.nodup_range n

/-- Witness of C1: 32 constructions from the state after static initialisation
hand out `0, 1, ..., 31`. -/
theorem C1_indices_in_creation_order_witness :
    (State.initial 0 0 0).RcCount = 0 ∧ 32 ≤ 32 ∧
      constructedIndices 32 (State.initial 0 0 0) = List.range 32 ∧
      (constructedIndices 32 (State.initial 0 0 0)).Nodup :=
  ⟨rfl, Nat.le_refl 32,
    (C1_indices_in_creation_order (State.initial 0 0 0) 32 rfl (Nat.le_refl 32)).1,
    (C1_indices_in_creation_order (State.initial 0 0 0) 32 rfl (Nat.le_refl 32)).2.2⟩

/-- C2: from a state whose allocation counter is 0, in a run of `n`
constructions the `k`-th one (counting from 1) yields the sentinel index 255
for every `k ≥ 33`; among the constructions of the run, the `k`-th yields 255
exactly when `k ≥ 33`; and after `m` constructions the next one yields 255
exactly when `m ≥ 32`, that is when 32 handles have already been made. -/
theorem C2_sentinel_from_the_33rd (s : State) (n : Nat) (h0 : s.RcCount = 0) :
    (∀ k, 33 ≤ k → k ≤ n → (constructedIndices n s)[k - 1]? = some INVALID_RC) ∧
      (∀ k, 1 ≤ k → k ≤ n →
        ((constructedIndices n s)[k - 1]? = some INVALID_RC ↔ 33 ≤ k)) ∧
      (∀ m, (XLR8RC.construct (constructMany m s).2).1.rcIndex = INVALID_RC ↔ 32 ≤ m) := by
  have key : ∀ k, 1 ≤ k → k ≤ n → (constructedIndices n s)[k - 1]? =
      some (if k - 1 < 32 then k - 1 else INVALID_RC) := by
    intro k hk1 hkn
    have h := constructedIndices_get n s (by omega) (k - 1) (by omega)
    rw [h0] at h
    simpa using h
  refine ⟨?_, ?_, ?_⟩
  · intro k hk hkn
    rw [key k (by omega) hkn, if_neg (by omega)]
  · intro k hk1 hkn
    rw [key k hk1 hkn]
    by_cases hk : k - 1 < 32
    · rw [if_pos hk]
      simp only [Option.some.injEq, INVALID_RC]
      omega
    · rw [if_neg hk]
      simp only [true_iff]
      omega
  · intro m
    have hc := constructMany_RcCount m s (by omega)
    rw [h0] at hc
    rw [ctor_rcIndex, hc]
    by_cases hm : 32 ≤ m
    · have e : min (0 + m) 32 = 32 := by omega
      simp [e, hm]
    · have e : min (0 + m) 32 = m := by omega
      rw [e, if_pos (by omega)]
      simp only [INVALID_RC]
      omega

/-- Witness of C2: of 40 constructions from the state after static
initialisation, the 33rd and the 40th yield 255 and the 32nd yields 31. -/
theorem C2_sentinel_from_the_33rd_witness :
    (State.initial 0 0 0).RcCount = 0 ∧
      (constructedIndices 40 (State.initial 0 0 0))[32]? = some 255 ∧
      (constructedIndices 40 (State.initial 0 0 0))[39]? = some 255 ∧
      ¬ (constructedIndices 40 (State.initial 0 0 0))[31]? = some 255 :=
  ⟨rfl,
    (C2_sentinel_from_the_33rd (State.initial 0 0 0) 40 rfl).1 33 (by decide) (by decide),
    (C2_sentinel_from_the_33rd (State.initial 0 0 0) 40 rfl).1 40 (by decide) (by decide),
    fun h => absurd
      (((C2_sentinel_from_the_33rd (State.initial 0 0 0) 40 rfl).2.1 32
        (by decide) (by decide)).mp h) (by decide)⟩

/-- C3: for a handle with slot index `i < 32` and byte values in `RCPWH`
(high) and `RCPWL` (low), `getPwm` first runs `enable`, which leaves
`0x80 | (i & 0x1F)` in `RCCR`, then returns `(high << 8) | low`, a 16-bit
value, and ends in the state `enable` left with that same value stored in the
`pwm_recv` of slot `i`; `RCCR` still holds the command afterwards.  Its
register accesses are, in this order: the write of `0x80 | (i & 0x1F)` to
`RCCR`, the read of `RCPWH` giving high, the read of `RCPWL` giving low; so
the write comes first and both bytes are read after it. -/
theorem C3_getPwm_returns_combined_bytes (s : State) (i : Nat) (hi : i < 32)
    (hh : s.RCPWH < 256) (hl : s.RCPWL < 256) :
    (XLR8RC.enable ⟨i⟩ s).RCCR = 0x80 ||| (i &&& 0x1F) ∧
      (XLR8RC.getPwm ⟨i⟩ s).2 =
        (XLR8RC.enable ⟨i⟩ s).store_pwm_recv i ((s.RCPWH <<< 8) ||| s.RCPWL) ∧
      (XLR8RC.getPwm ⟨i⟩ s).2.RCCR = 0x80 ||| (i &&& 0x1F) ∧
      (XLR8RC.getPwm ⟨i⟩ s).1 = (s.RCPWH <<< 8) ||| s.RCPWL ∧
      (XLR8RC.getPwm ⟨i⟩ s).1 < 65536 ∧
      ((XLR8RC.getPwm ⟨i⟩ s).2.rcs i).settings.pwm_recv = (s.RCPWH <<< 8) ||| s.RCPWL ∧
      (XLR8RC.getPwm_traced ⟨i⟩ s).1 = XLR8RC.getPwm ⟨i⟩ s ∧
      (XLR8RC.getPwm_traced ⟨i⟩ s).2 =
        [Access.write_RCCR (0x80 ||| (i &&& 0x1F)), Access.read_RCPWH s.RCPWH,
          Access.read_RCPWL s.RCPWL] ∧
      (XLR8RC.getPwm_traced ⟨i⟩ s).2.head? =
        some (Access.write_RCCR ((XLR8RC.getPwm ⟨i⟩ s).2.RCCR)) := by
  have _ := hi
  obtain ⟨m1, m2⟩ := pulse_mod s.RCPWH s.RCPWL hh hl
  obtain ⟨v1, v2⟩ := getPwm_value i s
  rw [m1] at v1
  have hc : (XLR8RC.getPwm ⟨i⟩ s).2.RCCR = 0x80 ||| (i &&& 0x1F) := by
    rw [getPwm_RCCR]; exact enable_RCCR i s
  refine ⟨enable_RCCR i s, ?_, hc, v1, ?_, ?_, rfl, getPwm_traced_accesses i s, ?_⟩
  · rw [getPwm_state]
    exact store_pwm_recv_congr _ _ _ _ (by rw [m1, Nat.mod_eq_of_lt m2])
  · rw [v1]; exact m2
  · rw [v2, v1]
  · rw [getPwm_traced_accesses, hc]; rfl

/-- Witness of C3: slot 0 with high byte `0x06` and low byte `0x40` leaves
`0x80` in `RCCR`, returns 1600 and stores 1600; its register accesses are the
write of `0x80` to `RCCR`, then the read of `0x06` and the read of `0x40`. -/
theorem C3_getPwm_returns_combined_bytes_witness :
    (XLR8RC.getPwm ⟨0⟩ (State.initial 0 0x06 0x40)).2.RCCR = 0x80 ∧
      (XLR8RC.getPwm ⟨0⟩ (State.initial 0 0x06 0x40)).1 = 1600 ∧
      ((XLR8RC.getPwm ⟨0⟩ (State.initial 0 0x06 0x40)).2.rcs 0).settings.pwm_recv = 1600 ∧
      (XLR8RC.getPwm_traced ⟨0⟩ (State.initial 0 0x06 0x40)).2 =
        [Access.write_RCCR 0x80, Access.read_RCPWH 0x06, Access.read_RCPWL 0x40] :=
  ⟨(C3_getPwm_returns_combined_bytes (State.initial 0 0x06 0x40) 0
      (by decide) (by decide) (by decide)).2.2.1,
    (C3_getPwm_returns_combined_bytes (State.initial 0 0x06 0x40) 0
      (by decide) (by decide) (by decide)).2.2.2.1,
    (C3_getPwm_returns_combined_bytes (State.initial 0 0x06 0x40) 0
      (by decide) (by decide) (by decide)).2.2.2.2.2.1,
    (C3_getPwm_returns_combined_bytes (State.initial 0 0x06 0x40) 0
      (by decide) (by decide) (by decide)).2.2.2.2.2.2.2.1⟩

/-- C4: for a handle with any 8-bit slot index `i`, `enable` leaves
`(1 << 7) | (i & 0x1F)` in the control register `RCCR` and the flag `en` of
`rcs[i]` set. -/
theorem C4_enable_command_and_flag (s : State) (i : Nat) (hi : i < 256) :
    (XLR8RC.enable ⟨i⟩ s).RCCR = (1 <<< 7) ||| (i &&& 0x1F) ∧
      ((XLR8RC.enable ⟨i⟩ s).rcs i).settings.en = true := by
  have _ := hi
  exact ⟨enable_RCCR i s, enable_en i s⟩

/-- Witness of C4: a handle with slot index 5 writes `0x85`. -/
theorem C4_enable_command_and_flag_witness :
    (XLR8RC.enable ⟨5⟩ (State.initial 0 0 0)).RCCR = 0x85 ∧
      ((XLR8RC.enable ⟨5⟩ (State.initial 0 0 0)).rcs 5).settings.en = true :=
  C4_enable_command_and_flag (State.initial 0 0 0) 5 (by decide)

/-- C5: for a handle with slot index `i < 32`, `disable` leaves
`(1 << 6) | (i & 0x1F)` in `RCCR`, clears the flag `en` of slot `i`, and
leaves `RCPWH`, `RCPWL` and the `pwm_recv` of slot `i` as they were. -/
theorem C5_disable_command_and_frame (s : State) (i : Nat) (hi : i < 32) :
    (XLR8RC.disable ⟨i⟩ s).RCCR = (1 <<< 6) ||| (i &&& 0x1F) ∧
      ((XLR8RC.disable ⟨i⟩ s).rcs i).settings.en = false ∧
      (XLR8RC.disable ⟨i⟩ s).RCPWH = s.RCPWH ∧
      (XLR8RC.disable ⟨i⟩ s).RCPWL = s.RCPWL ∧
      ((XLR8RC.disable ⟨i⟩ s).rcs i).settings.pwm_recv = (s.rcs i).settings.pwm_recv := by
  have _ := hi
  refine ⟨disable_RCCR i s, disable_en i s, rfl, rfl, ?_⟩
  simp [XLR8RC.disable, XLR8RC.disable_traced, State.write_RCCR, State.store_RCCR, State.store_en]

/-- Witness of C5: slot 5, enabled by a read of 1600, then disabled: `RCCR`
gets `0x45`, the flag is cleared, the registers and the cached 1600 stay. -/
theorem C5_disable_command_and_frame_witness :
    (XLR8RC.disable ⟨5⟩ (XLR8RC.getPwm ⟨5⟩ (State.initial 0 0x06 0x40)).2).RCCR = 0x45 ∧
      ((XLR8RC.disable ⟨5⟩
        (XLR8RC.getPwm ⟨5⟩ (State.initial 0 0x06 0x40)).2).rcs 5).settings.en = false ∧
      (XLR8RC.disable ⟨5⟩ (XLR8RC.getPwm ⟨5⟩ (State.initial 0 0x06 0x40)).2).RCPWH = 0x06 ∧
      (XLR8RC.disable ⟨5⟩ (XLR8RC.getPwm ⟨5⟩ (State.initial 0 0x06 0x40)).2).RCPWL = 0x40 ∧
      ((XLR8RC.disable ⟨5⟩
        (XLR8RC.getPwm ⟨5⟩ (State.initial 0 0x06 0x40)).2).rcs 5).settings.pwm_recv = 1600 :=
  C5_disable_command_and_frame (XLR8RC.getPwm ⟨5⟩ (State.initial 0 0x06 0x40)).2 5 (by decide)

/-- C6: for every state and every handle with slot index `i < 32`,
`isEnabled` right after `enable` returns true and `isEnabled` right after
`disable` returns false. -/
theorem C6_isEnabled_after_enable_disable (s : State) (i : Nat) (hi : i < 32) :
    (XLR8RC.isEnabled ⟨i⟩ (XLR8RC.enable ⟨i⟩ s)).1 = true ∧
      (XLR8RC.isEnabled ⟨i⟩ (XLR8RC.disable ⟨i⟩ s)).1 = false := by
  have _ := hi
  exact ⟨enable_en i s, disable_en i s⟩

/-- Witness of C6: slot 31, from a state where its flag is set (after
`enable`) and from one where it is clear (after static initialisation). -/
theorem C6_isEnabled_after_enable_disable_witness :
    (XLR8RC.isEnabled ⟨31⟩ (XLR8RC.enable ⟨31⟩ (State.initial 0 0 0))).1 = true ∧
      (XLR8RC.isEnabled ⟨31⟩
        (XLR8RC.disable ⟨31⟩ (XLR8RC.enable ⟨31⟩ (State.initial 0 0 0)))).1 = false :=
  ⟨(C6_isEnabled_after_enable_disable (State.initial 0 0 0) 31 (by decide)).1,
    (C6_isEnabled_after_enable_disable
      (XLR8RC.enable ⟨31⟩ (State.initial 0 0 0)) 31 (by decide)).2⟩

/-- C7: for every state (whatever the registers hold and whatever the flag
was) and every handle with slot index `i < 32`, `isEnabled` after `getPwm`
returns true, also when `disable` ran right before the `getPwm`. -/
theorem C7_isEnabled_after_getPwm (s : State) (i : Nat) (hi : i < 32) :
    (XLR8RC.isEnabled ⟨i⟩ (XLR8RC.getPwm ⟨i⟩ s).2).1 = true ∧
      (XLR8RC.isEnabled ⟨i⟩ (XLR8RC.getPwm ⟨i⟩ (XLR8RC.disable ⟨i⟩ s)).2).1 = true := by
  have _ := hi
  exact ⟨getPwm_en i s, getPwm_en i _⟩

/-- Witness of C7: slot 7, from the state after static initialisation, whose
flag is clear. -/
theorem C7_isEnabled_after_getPwm_witness :
    (XLR8RC.isEnabled ⟨7⟩ (State.initial 0 0 0)).1 = false ∧
      (XLR8RC.isEnabled ⟨7⟩ (XLR8RC.getPwm ⟨7⟩ (State.initial 0 0 0)).2).1 = true ∧
      (XLR8RC.isEnabled ⟨7⟩
        (XLR8RC.getPwm ⟨7⟩ (XLR8RC.disable ⟨7⟩ (State.initial 0 0 0))).2).1 = true :=
  ⟨rfl, C7_isEnabled_after_getPwm (State.initial 0 0 0) 7 (by decide)⟩

/-- C8, the code at the failing input: the 33rd handle made after static
initialisation (registers at 0) has the sentinel index 255, and `RCCR` is
still 0; `enable` or `getPwm` on that handle then writes `0x9F` to `RCCR`, and
`disable` writes `0x5F`: none of them is a no-op. -/
theorem C8_sentinel_handle_writes_RCCR :
    (constructedIndices 33 (State.initial 0 0 0))[32]? = some INVALID_RC ∧
      (constructMany 33 (State.initial 0 0 0)).2.RCCR = 0 ∧
      (XLR8RC.enable ⟨INVALID_RC⟩ (constructMany 33 (State.initial 0 0 0)).2).RCCR = 0x9F ∧
      (XLR8RC.disable ⟨INVALID_RC⟩ (constructMany 33 (State.initial 0 0 0)).2).RCCR = 0x5F ∧
      (XLR8RC.getPwm ⟨INVALID_RC⟩ (constructMany 33 (State.initial 0 0 0)).2).2.RCCR = 0x9F := by
  refine ⟨?_, ?_, ?_, ?_, ?_⟩
  · rw [constructedIndices_get 33 _ (by decide) 32 (by decide)]; rfl
  · rw [constructMany_RCCR]; rfl
  · rw [enable_RCCR]; rfl
  · rw [disable_RCCR]; rfl
  · rw [getPwm_RCCR, enable_RCCR]; rfl

/-- C9: in every state, the command `enable` writes to `RCCR` for a handle
with the sentinel index 255 is the one it writes for a handle with index 31,
namely `0x9F`; likewise `disable` writes `0x5F` for both; and
`255 & 0x1F = 31`. -/
theorem C9_sentinel_aliases_channel_31 (s : State) :
    (XLR8RC.enable ⟨INVALID_RC⟩ s).RCCR = (XLR8RC.enable ⟨31⟩ s).RCCR ∧
      (XLR8RC.enable ⟨INVALID_RC⟩ s).RCCR = 0x9F ∧
      (XLR8RC.disable ⟨INVALID_RC⟩ s).RCCR = (XLR8RC.disable ⟨31⟩ s).RCCR ∧
      (XLR8RC.disable ⟨INVALID_RC⟩ s).RCCR = 0x5F ∧
      INVALID_RC &&& 0x1F = 31 := by
  refine ⟨?_, ?_, ?_, ?_, ?_⟩
  · rw [enable_RCCR, enable_RCCR]; rfl
  · rw [enable_RCCR]; rfl
  · rw [disable_RCCR, disable_RCCR]; rfl
  · rw [disable_RCCR]; rfl
  · rfl

/-- C10: when the allocation counter has reached 32 (is not below 32), a
construction yields a handle with the sentinel index and returns the state it
was given: the counter, the table, the registers and the list of `pinMode`
calls are all as before. -/
theorem C10_construct_when_full (s : State) (h : 32 ≤ s.RcCount) :
    (XLR8RC.construct s).1.rcIndex = INVALID_RC ∧
      (XLR8RC.construct s).2 = s ∧
      (XLR8RC.construct s).2.RcCount = s.RcCount ∧
      (∀ k, (XLR8RC.construct s).2.rcs k = s.rcs k) ∧
      (XLR8RC.construct s).2.RCCR = s.RCCR ∧
      (XLR8RC.construct s).2.RCPWH = s.RCPWH ∧
      (XLR8RC.construct s).2.RCPWL = s.RCPWL ∧
      (XLR8RC.construct s).2.pinModeCalls = s.pinModeCalls := by
  rw [ctor_of_ge s h]
  exact ⟨rfl, rfl, rfl, fun _ => rfl, rfl, rfl, rfl, rfl⟩

/-- Witness of C10: the state reached by 32 constructions after static
initialisation has the counter at 32; one more construction yields 255 and
returns that state. -/
theorem C10_construct_when_full_witness :
    32 ≤ (constructMany 32 (State.initial 0 0 0)).2.RcCount ∧
      (XLR8RC.construct (constructMany 32 (State.initial 0 0 0)).2).1.rcIndex = 255 ∧
      (XLR8RC.construct (constructMany 32 (State.initial 0 0 0)).2).2 =
        (constructMany 32 (State.initial 0 0 0)).2 :=
  ⟨Nat.le_of_eq (constructMany_RcCount 32 (State.initial 0 0 0) (by decide)).symm,
    (C10_construct_when_full (constructMany 32 (State.initial 0 0 0)).2
      (Nat.le_of_eq (constructMany_RcCount 32 (State.initial 0 0 0) (by decide)).symm)).1,
    (C10_construct_when_full (constructMany 32 (State.initial 0 0 0)).2
      (Nat.le_of_eq (constructMany_RcCount 32 (State.initial 0 0 0) (by decide)).symm)).2.1⟩

/-- C11: when the allocation counter `c` is below 32, a construction yields a
handle with slot index `c`, leaves the counter at `c + 1`, leaves slot `c` with
`pwm_recv = 0` and `en = false` whatever it held (so `isEnabled` on the new
handle returns false), and adds exactly one call `pinMode(RCPIN, INPUT)`, with
`RCPIN = 3`, to the calls made before. -/
theorem C11_construct_when_free (s : State) (h : s.RcCount < 32) :
    (XLR8RC.construct s).1.rcIndex = s.RcCount ∧
      (XLR8RC.construct s).2.RcCount = s.RcCount + 1 ∧
      ((XLR8RC.construct s).2.rcs s.RcCount).settings.pwm_recv = 0 ∧
      ((XLR8RC.construct s).2.rcs s.RcCount).settings.en = false ∧
      (XLR8RC.isEnabled (XLR8RC.construct s).1 (XLR8RC.construct s).2).1 = false ∧
      (XLR8RC.construct s).2.pinModeCalls = s.pinModeCalls ++ [(RCPIN, PinMode.INPUT)] ∧
      RCPIN = 3 := by
  have h1 : (s.RcCount + 1) % 256 = s.RcCount + 1 := Nat.mod_eq_of_lt (by omega)
  simp [XLR8RC.construct, MAX_RCS, h, XLR8RC.init, pinMode, State.store_en,
    State.store_pwm_recv, XLR8RC.isEnabled, h1, RCPIN]

/-- Witness of C11: counter 5, every slot holding 1600 and a set flag, and one
earlier `pinMode` call: the construction yields index 5, counter 6, slot 5
reset, and a second `pinMode` call on pin 3. -/
theorem C11_construct_when_free_witness :
    (XLR8RC.construct ⟨fun _ => ⟨⟨1600, true⟩⟩, 5, 0, 0, 0, [(3, PinMode.INPUT)]⟩).1.rcIndex = 5 ∧
      (XLR8RC.construct ⟨fun _ => ⟨⟨1600, true⟩⟩, 5, 0, 0, 0, [(3, PinMode.INPUT)]⟩).2.RcCount = 6 ∧
      ((XLR8RC.construct
        ⟨fun _ => ⟨⟨1600, true⟩⟩, 5, 0, 0, 0, [(3, PinMode.INPUT)]⟩).2.rcs 5).settings.pwm_recv = 0 ∧
      ((XLR8RC.construct
        ⟨fun _ => ⟨⟨1600, true⟩⟩, 5, 0, 0, 0, [(3, PinMode.INPUT)]⟩).2.rcs 5).settings.en = false ∧
      (XLR8RC.construct ⟨fun _ => ⟨⟨1600, true⟩⟩, 5, 0, 0, 0, [(3, PinMode.INPUT)]⟩).2.pinModeCalls =
        [(3, PinMode.INPUT), (3, PinMode.INPUT)] :=
  ⟨(C11_construct_when_free ⟨fun _ => ⟨⟨1600, true⟩⟩, 5, 0, 0, 0, [(3, PinMode.INPUT)]⟩
      (by decide)).1,
    (C11_construct_when_free ⟨fun _ => ⟨⟨1600, true⟩⟩, 5, 0, 0, 0, [(3, PinMode.INPUT)]⟩
      (by decide)).2.1,
    (C11_construct_when_free ⟨fun _ => ⟨⟨1600, true⟩⟩, 5, 0, 0, 0, [(3, PinMode.INPUT)]⟩
      (by decide)).2.2.1,
    (C11_construct_when_free ⟨fun _ => ⟨⟨1600, true⟩⟩, 5, 0, 0, 0, [(3, PinMode.INPUT)]⟩
      (by decide)).2.2.2.1,
    (C11_construct_when_free ⟨fun _ => ⟨⟨1600, true⟩⟩, 5, 0, 0, 0, [(3, PinMode.INPUT)]⟩
      (by decide)).2.2.2.2.2.1⟩

/-- C12: for every state and every handle with slot index `i < 32`, `enable`
run twice in a row leaves exactly the state `enable` run once leaves, and
likewise `disable`. -/
theorem C12_enable_disable_idempotent (s : State) (i : Nat) (hi : i < 32) :
    XLR8RC.enable ⟨i⟩ (XLR8RC.enable ⟨i⟩ s) = XLR8RC.enable ⟨i⟩ s ∧
      XLR8RC.disable ⟨i⟩ (XLR8RC.disable ⟨i⟩ s) = XLR8RC.disable ⟨i⟩ s := by
  have _ := hi
  constructor
  · simp only [XLR8RC.enable, XLR8RC.enable_traced, State.write_RCCR, State.store_RCCR, State.store_en, State.mk.injEq, and_true,
      true_and]
    funext j
    by_cases hj : j = i <;> simp [hj]
  · simp only [XLR8RC.disable, XLR8RC.disable_traced, State.write_RCCR, State.store_RCCR, State.store_en, State.mk.injEq, and_true,
      true_and]
    funext j
    by_cases hj : j = i <;> simp [hj]

/-- Witness of C12: slot 5 after static initialisation. -/
theorem C12_enable_disable_idempotent_witness :
    XLR8RC.enable ⟨5⟩ (XLR8RC.enable ⟨5⟩ (State.initial 0 0 0)) =
        XLR8RC.enable ⟨5⟩ (State.initial 0 0 0) ∧
      XLR8RC.disable ⟨5⟩ (XLR8RC.disable ⟨5⟩ (State.initial 0 0 0)) =
        XLR8RC.disable ⟨5⟩ (State.initial 0 0 0) :=
  C12_enable_disable_idempotent (State.initial 0 0 0) 5 (by decide)

/-- C13, the claim at a concrete input: after two constructions, `enable` on
the second handle leaves `0x81` in `RCCR` while the flag of slot 0 is still
clear; the redundant `disable` on the first handle then writes `0x40`, so the
state changes.  Likewise after `enable` on both handles, first then second,
the flag of slot 0 is set and the redundant `enable` on the first handle
replaces `0x81` by `0x80`. -/
theorem C13_redundant_transition_changes_RCCR :
    ((XLR8RC.enable ⟨1⟩ (constructMany 2 (State.initial 0 0 0)).2).rcs 0).settings.en = false ∧
      (XLR8RC.enable ⟨1⟩ (constructMany 2 (State.initial 0 0 0)).2).RCCR = 0x81 ∧
      (XLR8RC.disable ⟨0⟩
        (XLR8RC.enable ⟨1⟩ (constructMany 2 (State.initial 0 0 0)).2)).RCCR = 0x40 ∧
      XLR8RC.disable ⟨0⟩ (XLR8RC.enable ⟨1⟩ (constructMany 2 (State.initial 0 0 0)).2) ≠
        XLR8RC.enable ⟨1⟩ (constructMany 2 (State.initial 0 0 0)).2 ∧
      ((XLR8RC.enable ⟨1⟩ (XLR8RC.enable ⟨0⟩
        (constructMany 2 (State.initial 0 0 0)).2)).rcs 0).settings.en = true ∧
      XLR8RC.enable ⟨0⟩ (XLR8RC.enable ⟨1⟩ (XLR8RC.enable ⟨0⟩
          (constructMany 2 (State.initial 0 0 0)).2)) ≠
        XLR8RC.enable ⟨1⟩ (XLR8RC.enable ⟨0⟩ (constructMany 2 (State.initial 0 0 0)).2) := by
  refine ⟨by decide, by decide, by decide, ?_, by decide, ?_⟩
  · intro h
    exact absurd (congrArg State.RCCR h) (by decide)
  · intro h
    exact absurd (congrArg State.RCCR h) (by decide)

/-- C13 as amended: for a handle with slot index `i < 32` whose flag is
already clear, `disable` leaves the table and the counter as they are and
changes the state in `RCCR` only, which gets `(1 << 6) | (i & 0x1F)`; the
state is unchanged exactly when `RCCR` held that command already.  Likewise
`enable` on a slot whose flag is already set, with `(1 << 7) | (i & 0x1F)`. -/
theorem C13_redundant_transition_rewrites_RCCR (s : State) (i : Nat) (hi : i < 32) :
    ((s.rcs i).settings.en = false →
        (XLR8RC.disable ⟨i⟩ s).rcs = s.rcs ∧
        (XLR8RC.disable ⟨i⟩ s).RcCount = s.RcCount ∧
        XLR8RC.disable ⟨i⟩ s = { s with RCCR := (1 <<< 6) ||| (i &&& 0x1F) } ∧
        (XLR8RC.disable ⟨i⟩ s = s ↔ s.RCCR = (1 <<< 6) ||| (i &&& 0x1F))) ∧
      ((s.rcs i).settings.en = true →
        (XLR8RC.enable ⟨i⟩ s).rcs = s.rcs ∧
        (XLR8RC.enable ⟨i⟩ s).RcCount = s.RcCount ∧
        XLR8RC.enable ⟨i⟩ s = { s with RCCR := (1 <<< 7) ||| (i &&& 0x1F) } ∧
        (XLR8RC.enable ⟨i⟩ s = s ↔ s.RCCR = (1 <<< 7) ||| (i &&& 0x1F))) := by
  have _ := hi
  constructor
  · intro h
    have e : XLR8RC.disable ⟨i⟩ s = { s with RCCR := (1 <<< 6) ||| (i &&& 0x1F) } := by
      simp only [XLR8RC.disable, XLR8RC.disable_traced, State.write_RCCR, store_en_same s i false h, State.store_RCCR, RCDIS]
      rw [command_mod 6 i (by norm_num)]
    refine ⟨by rw [e], by rw [e], e, ?_⟩
    rw [e]
    exact with_RCCR_eq_iff s _
  · intro h
    have e : XLR8RC.enable ⟨i⟩ s = { s with RCCR := (1 <<< 7) ||| (i &&& 0x1F) } := by
      simp only [XLR8RC.enable, XLR8RC.enable_traced, State.write_RCCR, store_en_same s i true h, State.store_RCCR, RCEN]
      rw [command_mod 7 i (by norm_num)]
    refine ⟨by rw [e], by rw [e], e, ?_⟩
    rw [e]
    exact with_RCCR_eq_iff s _

/-- Witness of C13 as amended: slot 0 with a clear flag and `0x40` already in
`RCCR` is left as it is by `disable`; with the flag set and `0x80` in `RCCR`
it is left as it is by `enable`. -/
theorem C13_redundant_transition_rewrites_RCCR_witness :
    ((State.initial 0x40 0 0).rcs 0).settings.en = false ∧
      XLR8RC.disable ⟨0⟩ (State.initial 0x40 0 0) = State.initial 0x40 0 0 ∧
      ((XLR8RC.enable ⟨0⟩ (State.initial 0 0 0)).rcs 0).settings.en = true ∧
      XLR8RC.enable ⟨0⟩ (XLR8RC.enable ⟨0⟩ (State.initial 0 0 0)) =
        XLR8RC.enable ⟨0⟩ (State.initial 0 0 0) :=
  ⟨rfl,
    ((C13_redundant_transition_rewrites_RCCR (State.initial 0x40 0 0) 0 (by decide)).1
      rfl).2.2.2.mpr rfl,
    rfl,
    ((C13_redundant_transition_rewrites_RCCR (XLR8RC.enable ⟨0⟩ (State.initial 0 0 0)) 0
      (by decide)).2 rfl).2.2.2.mpr rfl⟩

/-- C14: for every state and every handle with slot index `i < 32`,
`isEnabled` returns the flag `en` stored in slot `i` and returns the state it
was given; its result is the same whatever the three hardware registers hold. -/
theorem C14_isEnabled_pure_accessor (s : State) (i : Nat) (hi : i < 32) :
    (XLR8RC.isEnabled ⟨i⟩ s).1 = (s.rcs i).settings.en ∧
      (XLR8RC.isEnabled ⟨i⟩ s).2 = s ∧
      (∀ a b c : Nat,
        (XLR8RC.isEnabled ⟨i⟩ { s with RCCR := a, RCPWH := b, RCPWL := c }).1 =
          (XLR8RC.isEnabled ⟨i⟩ s).1) := by
  have _ := hi
  exact ⟨rfl, rfl, fun _ _ _ => rfl⟩

/-- Witness of C14: slot 3 after `enable`, where `RCCR` holds `0x83`: the
result is the stored flag, true, and the state is returned as it was. -/
theorem C14_isEnabled_pure_accessor_witness :
    (XLR8RC.isEnabled ⟨3⟩ (XLR8RC.enable ⟨3⟩ (State.initial 0 0 0))).1 = true ∧
      (XLR8RC.isEnabled ⟨3⟩ (XLR8RC.enable ⟨3⟩ (State.initial 0 0 0))).2 =
        XLR8RC.enable ⟨3⟩ (State.initial 0 0 0) :=
  ⟨(C14_isEnabled_pure_accessor (XLR8RC.enable ⟨3⟩ (State.initial 0 0 0)) 3 (by decide)).1,
    (C14_isEnabled_pure_accessor (XLR8RC.enable ⟨3⟩ (State.initial 0 0 0)) 3 (by decide)).2.1⟩

/-- C15: for a handle with slot index `i < 32` and two states that agree on
`RCPWH` and on `RCPWL` (and may differ in the flag and the `pwm_recv` of the
slot, in `RCCR` and everywhere else), `getPwm` returns the same value in both
and leaves the same `pwm_recv` in slot `i`, namely the value it returns. -/
theorem C15_getPwm_ignores_cached_state (s t : State) (i : Nat) (hi : i < 32)
    (hH : s.RCPWH = t.RCPWH) (hL : s.RCPWL = t.RCPWL) :
    (XLR8RC.getPwm ⟨i⟩ s).1 = (XLR8RC.getPwm ⟨i⟩ t).1 ∧
      ((XLR8RC.getPwm ⟨i⟩ s).2.rcs i).settings.pwm_recv =
        ((XLR8RC.getPwm ⟨i⟩ t).2.rcs i).settings.pwm_recv ∧
      ((XLR8RC.getPwm ⟨i⟩ s).2.rcs i).settings.pwm_recv = (XLR8RC.getPwm ⟨i⟩ s).1 := by
  have _ := hi
  obtain ⟨s1, s2⟩ := getPwm_value i s
  obtain ⟨t1, t2⟩ := getPwm_value i t
  refine ⟨?_, ?_, s2⟩
  · rw [s1, t1, hH, hL]
  · rw [s2, t2, s1, t1, hH, hL]

/-- Witness of C15: slot 2 with bytes `0x06`, `0x40`, once after static
initialisation and once with the slot holding 999, a set flag and `0x42` in
`RCCR`: both reads return 1600. -/
theorem C15_getPwm_ignores_cached_state_witness :
    (XLR8RC.getPwm ⟨2⟩ (State.initial 0 0x06 0x40)).1 = 1600 ∧
      (XLR8RC.getPwm ⟨2⟩ ⟨fun _ => ⟨⟨999, true⟩⟩, 3, 0x42, 0x06, 0x40, []⟩).1 = 1600 ∧
      (XLR8RC.getPwm ⟨2⟩ (State.initial 0 0x06 0x40)).1 =
        (XLR8RC.getPwm ⟨2⟩ ⟨fun _ => ⟨⟨999, true⟩⟩, 3, 0x42, 0x06, 0x40, []⟩).1 :=
  ⟨rfl, rfl,
    (C15_getPwm_ignores_cached_state (State.initial 0 0x06 0x40)
      ⟨fun _ => ⟨⟨999, true⟩⟩, 3, 0x42, 0x06, 0x40, []⟩ 2 (by decide) rfl rfl).1⟩

/-- C16: in the state a client program reaches from static initialisation by
any sequence of constructions and of `enable`, `disable`, `getPwm`,
`isEnabled` calls on its handles, the counter `RcCount` is at most 32 (so
below 256: the 8-bit increment never wraps), it equals `min n 32` for `n` the
number of constructions made, it is not above the counter reached after any
further calls, there is one handle per construction, and the index of every
handle is below `RcCount` or equal to 255. -/
theorem C16_registry_invariant (rccr rcpwh rcpwl : Nat) (cs : List Call) :
    (run cs (boot rccr rcpwh rcpwl)).2.RcCount ≤ 32 ∧
      (run cs (boot rccr rcpwh rcpwl)).2.RcCount < 256 ∧
      (run cs (boot rccr rcpwh rcpwl)).2.RcCount = min (cs.count Call.construct) 32 ∧
      (∀ ds : List Call, (run cs (boot rccr rcpwh rcpwl)).2.RcCount ≤
        (run (cs ++ ds) (boot rccr rcpwh rcpwl)).2.RcCount) ∧
      (run cs (boot rccr rcpwh rcpwl)).1.length = cs.count Call.construct ∧
      (∀ x ∈ (run cs (boot rccr rcpwh rcpwl)).1,
        x.rcIndex < (run cs (boot rccr rcpwh rcpwl)).2.RcCount ∨ x.rcIndex = INVALID_RC) := by
  have h0 : (boot rccr rcpwh rcpwl).2.RcCount = 0 := rfl
  have hc := run_RcCount cs (boot rccr rcpwh rcpwl) (by rw [h0]; omega)
  rw [h0, Nat.zero_add] at hc
  refine ⟨by omega, by omega, hc, ?_, ?_, ?_⟩
  · intro ds
    rw [run_append, run_RcCount ds _ (by omega)]
    omega
  · rw [run_length]
    simp [boot]
  · apply run_indices
    intro x hx
    simp [boot] at hx

/-- C17: for a handle with slot index `i < 32`, each of `enable`, `disable`
and `getPwm` leaves every entry `j ≠ i` of the table (its `pwm_recv` and its
`en`) and the counter as they were; and when `j < 32` is the slot of a
handle A and `i` that of another handle B, after `enable` on A and then
`getPwm` on B the `pwm_recv` of slot `j` still holds its earlier value while
`RCCR` holds the enable command of B, `0x80 | (i & 0x1F)`. -/
theorem C17_slot_isolation (s : State) (i j : Nat) (hi : i < 32) (hj : j ≠ i) :
    (XLR8RC.enable ⟨i⟩ s).rcs j = s.rcs j ∧
      (XLR8RC.disable ⟨i⟩ s).rcs j = s.rcs j ∧
      (XLR8RC.getPwm ⟨i⟩ s).2.rcs j = s.rcs j ∧
      (XLR8RC.enable ⟨i⟩ s).RcCount = s.RcCount ∧
      (XLR8RC.disable ⟨i⟩ s).RcCount = s.RcCount ∧
      (XLR8RC.getPwm ⟨i⟩ s).2.RcCount = s.RcCount ∧
      (j < 32 →
        ((XLR8RC.getPwm ⟨i⟩ (XLR8RC.enable ⟨j⟩ s)).2.rcs j).settings.pwm_recv =
            (s.rcs j).settings.pwm_recv ∧
          (XLR8RC.getPwm ⟨i⟩ (XLR8RC.enable ⟨j⟩ s)).2.RCCR = 0x80 ||| (i &&& 0x1F)) := by
  have _ := hi
  refine ⟨enable_rcs_other i j s hj, disable_rcs_other i j s hj, getPwm_rcs_other i j s hj,
    rfl, rfl, rfl, ?_⟩
  intro _
  constructor
  · rw [getPwm_rcs_other i j _ hj, enable_pwm_recv]
  · rw [getPwm_RCCR]; exact enable_RCCR i _

/-- Witness of C17: slot 0 holds 1600 from a first read; the bytes then change
to `0x03`, `0xE8` and slot 1 is read: slot 1 gets 1000, slot 0 keeps 1600, and
`RCCR` holds `0x81`. -/
theorem C17_slot_isolation_witness :
    ((XLR8RC.getPwm ⟨1⟩ (XLR8RC.enable ⟨0⟩
        ⟨fun _ => ⟨⟨1600, false⟩⟩, 2, 0, 0x03, 0xE8, []⟩)).2.rcs 0).settings.pwm_recv = 1600 ∧
      ((XLR8RC.getPwm ⟨1⟩ (XLR8RC.enable ⟨0⟩
        ⟨fun _ => ⟨⟨1600, false⟩⟩, 2, 0, 0x03, 0xE8, []⟩)).2.rcs 1).settings.pwm_recv = 1000 ∧
      (XLR8RC.getPwm ⟨1⟩ (XLR8RC.enable ⟨0⟩
        ⟨fun _ => ⟨⟨1600, false⟩⟩, 2, 0, 0x03, 0xE8, []⟩)).2.RCCR = 0x81 :=
  ⟨((C17_slot_isolation ⟨fun _ => ⟨⟨1600, false⟩⟩, 2, 0, 0x03, 0xE8, []⟩ 1 0
      (by decide) (by decide)).2.2.2.2.2.2 (by decide)).1,
    rfl,
    ((C17_slot_isolation ⟨fun _ => ⟨⟨1600, false⟩⟩, 2, 0, 0x03, 0xE8, []⟩ 1 0
      (by decide) (by decide)).2.2.2.2.2.2 (by decide)).2⟩

/-- C18: for slot indices `i, j < 32` and any states, the command `enable`
(or `disable`) leaves in `RCCR` gives back `i` when masked with `0x1F`; two
enable commands, or two disable commands, are equal only if `i = j`; an enable
command differs from every disable command; an enable command has bit 7 set
and bits 6 and 5 clear, a disable command has bit 6 set and bits 7 and 5
clear.  On all 8-bit indices the encoding is not injective: the indices 255
and 31 give the same enable command and the same disable command. -/
theorem C18_command_encoding (s t : State) (i j : Nat) (hi : i < 32) (hj : j < 32) :
    (XLR8RC.enable ⟨i⟩ s).RCCR &&& 0x1F = i ∧
      (XLR8RC.disable ⟨i⟩ s).RCCR &&& 0x1F = i ∧
      ((XLR8RC.enable ⟨i⟩ s).RCCR = (XLR8RC.enable ⟨j⟩ t).RCCR → i = j) ∧
      ((XLR8RC.disable ⟨i⟩ s).RCCR = (XLR8RC.disable ⟨j⟩ t).RCCR → i = j) ∧
      (XLR8RC.enable ⟨i⟩ s).RCCR ≠ (XLR8RC.disable ⟨j⟩ t).RCCR ∧
      ((XLR8RC.enable ⟨i⟩ s).RCCR.testBit 7 = true ∧
        (XLR8RC.enable ⟨i⟩ s).RCCR.testBit 6 = false ∧
        (XLR8RC.enable ⟨i⟩ s).RCCR.testBit 5 = false) ∧
      ((XLR8RC.disable ⟨i⟩ s).RCCR.testBit 7 = false ∧
        (XLR8RC.disable ⟨i⟩ s).RCCR.testBit 6 = true ∧
        (XLR8RC.disable ⟨i⟩ s).RCCR.testBit 5 = false) ∧
      ((XLR8RC.enable ⟨255⟩ s).RCCR = (XLR8RC.enable ⟨31⟩ s).RCCR ∧
        (XLR8RC.disable ⟨255⟩ s).RCCR = (XLR8RC.disable ⟨31⟩ s).RCCR) := by
  have ei : (XLR8RC.enable ⟨i⟩ s).RCCR = 128 + i := by rw [enable_RCCR, enable_cmd_val i hi]
  have ej : (XLR8RC.enable ⟨j⟩ t).RCCR = 128 + j := by rw [enable_RCCR, enable_cmd_val j hj]
  have di : (XLR8RC.disable ⟨i⟩ s).RCCR = 64 + i := by rw [disable_RCCR, disable_cmd_val i hi]
  have dj : (XLR8RC.disable ⟨j⟩ t).RCCR = 64 + j := by rw [disable_RCCR, disable_cmd_val j hj]
  rw [ei, ej, di, dj]
  refine ⟨?_, ?_, fun h => by omega, fun h => by omega, by omega, ⟨?_, ?_, ?_⟩, ⟨?_, ?_, ?_⟩,
    ⟨?_, ?_⟩⟩
  · interval_cases i <;> rfl
  · interval_cases i <;> rfl
  · interval_cases i <;> rfl
  · interval_cases i <;> rfl
  · interval_cases i <;> rfl
  · interval_cases i <;> rfl
  · interval_cases i <;> rfl
  · interval_cases i <;> rfl
  · rw [enable_RCCR, enable_RCCR]; rfl
  · rw [disable_RCCR, disable_RCCR]; rfl

/-- Witness of C18: the indices 5 and 17: the enable command of 5 is `0x85`
and decodes to 5, the disable command of 17 is `0x51`. -/
theorem C18_command_encoding_witness :
    (XLR8RC.enable ⟨5⟩ (State.initial 0 0 0)).RCCR = 0x85 ∧
      (XLR8RC.disable ⟨17⟩ (State.initial 0 0 0)).RCCR = 0x51 ∧
      (XLR8RC.enable ⟨5⟩ (State.initial 0 0 0)).RCCR &&& 0x1F = 5 ∧
      (XLR8RC.enable ⟨5⟩ (State.initial 0 0 0)).RCCR ≠
        (XLR8RC.disable ⟨17⟩ (State.initial 0 0 0)).RCCR :=
  ⟨rfl, rfl,
    (C18_command_encoding (State.initial 0 0 0) (State.initial 0 0 0) 5 17
      (by decide) (by decide)).1,
    (C18_command_encoding (State.initial 0 0 0) (State.initial 0 0 0) 5 17
      (by decide) (by decide)).2.2.2.2.1⟩

/-- C19: when `RCPWH` and `RCPWL` hold bytes, the value `v` that `getPwm`
computes as `((uint16_t)(RCPWH << 8)) | RCPWL` and returns satisfies
`v >> 8 = RCPWH`, `v & 0xFF = RCPWL` and `v < 2^16`, it equals
`(RCPWH << 8) | RCPWL` computed without any truncation, and two reads (of any
handles, in any states with byte registers) that return the same value had
the same high byte and the same low byte. -/
theorem C19_pulse_bytes_round_trip (s t : State) (i j : Nat)
    (hsH : s.RCPWH < 256) (hsL : s.RCPWL < 256) (htH : t.RCPWH < 256) (htL : t.RCPWL < 256) :
    (XLR8RC.getPwm ⟨i⟩ s).1 >>> 8 = s.RCPWH ∧
      (XLR8RC.getPwm ⟨i⟩ s).1 &&& 0xFF = s.RCPWL ∧
      (XLR8RC.getPwm ⟨i⟩ s).1 < 2 ^ 16 ∧
      (XLR8RC.getPwm ⟨i⟩ s).1 = (s.RCPWH <<< 8) ||| s.RCPWL ∧
      ((XLR8RC.getPwm ⟨i⟩ s).1 = (XLR8RC.getPwm ⟨j⟩ t).1 →
        s.RCPWH = t.RCPWH ∧ s.RCPWL = t.RCPWL) := by
  have vs : (XLR8RC.getPwm ⟨i⟩ s).1 = s.RCPWH * 256 + s.RCPWL := by
    rw [(getPwm_value i s).1, (pulse_mod _ _ hsH hsL).1, pulse_val _ _ hsL]
  have vt : (XLR8RC.getPwm ⟨j⟩ t).1 = t.RCPWH * 256 + t.RCPWL := by
    rw [(getPwm_value j t).1, (pulse_mod _ _ htH htL).1, pulse_val _ _ htL]
  have hand : ∀ v : Nat, v &&& 0xFF = v % 2 ^ 8 := fun v => Nat.and_pow_two_sub_one_eq_mod v 8
  refine ⟨?_, ?_, ?_, ?_, ?_⟩
  · rw [vs, Nat.shiftRight_eq_div_pow]; omega
  · rw [vs, hand]; omega
  · rw [vs]; omega
  · rw [vs, pulse_val _ _ hsL]
  · rw [vs, vt]; omega

/-- Witness of C19: the bytes `0x06`, `0x40` give 1600, whose high byte is
`0x06` and whose low byte is `0x40`; the bytes `0xFF`, `0xFF` give 65535. -/
theorem C19_pulse_bytes_round_trip_witness :
    (XLR8RC.getPwm ⟨0⟩ (State.initial 0 0x06 0x40)).1 = 1600 ∧
      (XLR8RC.getPwm ⟨0⟩ (State.initial 0 0x06 0x40)).1 >>> 8 = 0x06 ∧
      (XLR8RC.getPwm ⟨0⟩ (State.initial 0 0x06 0x40)).1 &&& 0xFF = 0x40 ∧
      (XLR8RC.getPwm ⟨0⟩ (State.initial 0 0xFF 0xFF)).1 = 65535 ∧
      (XLR8RC.getPwm ⟨0⟩ (State.initial 0 0xFF 0xFF)).1 < 2 ^ 16 :=
  ⟨rfl,
    (C19_pulse_bytes_round_trip (State.initial 0 0x06 0x40) (State.initial 0 0xFF 0xFF) 0 0
      (by decide) (by decide) (by decide) (by decide)).1,
    (C19_pulse_bytes_round_trip (State.initial 0 0x06 0x40) (State.initial 0 0xFF 0xFF) 0 0
      (by decide) (by decide) (by decide) (by decide)).2.1,
    rfl,
    (C19_pulse_bytes_round_trip (State.initial 0 0xFF 0xFF) (State.initial 0 0x06 0x40) 0 0
      (by decide) (by decide) (by decide) (by decide)).2.2.1⟩

end XLR8
